import Mathlib

/-!
Verification of the ETOPS Airline Strategy Game core (src/app.py).

The scoring engine (`calculate_game_score`), title classifier
(`get_title_and_badge`), ETOPS diversion-distance computation
(`calculate_etops_requirement`) and the challenge-mode state transitions
are embedded as Lean definitions; numbers are modelled as exact rationals
or reals, Python's float infinity as `⊤ : WithTop ℝ`, and Python's
built-in `round` (round-half-to-even) as `pyRound`.
-/

/-- Python's built-in `round` to an integer: nearest integer,
ties broken to the even integer (banker's rounding). -/
def pyRound (q : ℚ) : ℤ :=
  if q - ⌊q⌋ < 1/2 then ⌊q⌋
  else if 1/2 < q - ⌊q⌋ then ⌊q⌋ + 1
  else if ⌊q⌋ % 2 = 0 then ⌊q⌋ else ⌊q⌋ + 1

theorem floor_le_pyRound (q : ℚ) : ⌊q⌋ ≤ pyRound q := by
  unfold pyRound
  split_ifs <;> omega

theorem pyRound_le_floor_add_one (q : ℚ) : pyRound q ≤ ⌊q⌋ + 1 := by
  unfold pyRound
  split_ifs <;> omega

theorem le_pyRound_of_le {n : ℤ} {q : ℚ} (h : (n : ℚ) ≤ q) : n ≤ pyRound q := by
  have h1 : n ≤ ⌊q⌋ := by
    have := Int.le_floor.mpr h
    omega
  exact le_trans h1 (floor_le_pyRound q)

theorem pyRound_le_of_le {n : ℤ} {q : ℚ} (h : q ≤ (n : ℚ)) : pyRound q ≤ n := by
  have hf : ⌊q⌋ ≤ n := by
    have h1 : ⌊q⌋ ≤ ⌊(n : ℚ)⌋ := Int.floor_le_floor h
    simpa using h1
  have hfl : (⌊q⌋ : ℚ) ≤ q := Int.floor_le q
  unfold pyRound
  split_ifs with h1 h2 h3
  · exact hf
  · -- q - ⌊q⌋ > 1/2, so ⌊q⌋ + 1/2 < q ≤ n hence ⌊q⌋ < n in ℤ
    have : (⌊q⌋ : ℚ) < (n : ℚ) := by linarith
    have : ⌊q⌋ < n := by exact_mod_cast this
    omega
  · exact hf
  · -- tie case with odd floor: q = ⌊q⌋ + 1/2 ≤ n, so ⌊q⌋ < n
    have : (⌊q⌋ : ℚ) < (n : ℚ) := by linarith
    have : ⌊q⌋ < n := by exact_mod_cast this
    omega

theorem pyRound_mono {q r : ℚ} (h : q ≤ r) : pyRound q ≤ pyRound r := by
  have hf : ⌊q⌋ ≤ ⌊r⌋ := Int.floor_le_floor h
  rcases lt_or_eq_of_le hf with hlt | heq
  · calc pyRound q ≤ ⌊q⌋ + 1 := pyRound_le_floor_add_one q
    _ ≤ ⌊r⌋ := by omega
    _ ≤ pyRound r := floor_le_pyRound r
  · unfold pyRound
    rw [← heq]
    split_ifs <;> first | omega | linarith

/-- Result record of `calculate_game_score` (src/app.py lines 21-69).
The Japanese breakdown strings are display formatting and are omitted. -/
structure GameScore where
  total_score : ℤ
  etops_score : ℚ
  environmental_score : ℚ
  efficiency_score : ℚ
  aircraft_score : ℤ
  deriving Repr, DecidableEq

/-- ETOPS Compliance Score (0-25 points), src/app.py line 26. -/
def etops_score (etops_compliant : Bool) : ℚ :=
  if etops_compliant then 25 else 0

/-- Environmental Score (0-25 points), src/app.py lines 29-38. -/
def env_score (co2_per_passenger : ℚ) : ℚ :=
  if co2_per_passenger ≤ 50 then 25
  else if co2_per_passenger ≤ 100 then 20
  else if co2_per_passenger ≤ 150 then 15
  else if co2_per_passenger ≤ 200 then 10
  else 5

/-- Efficiency Score (0-25 points), src/app.py lines 41-50;
`capacity_utilization` is a percentage. -/
def eff_score (capacity_utilization : ℚ) : ℚ :=
  if 90 ≤ capacity_utilization then 25
  else if 80 ≤ capacity_utilization then 20
  else if 70 ≤ capacity_utilization then 15
  else if 60 ≤ capacity_utilization then 10
  else 5

/-- Aircraft Performance Score before display rounding, src/app.py line 53. -/
def aircraft_score_raw (aircraft_sdg_score : ℚ) : ℚ :=
  (aircraft_sdg_score / 10) * 25

/-- `calculate_game_score` from src/app.py lines 21-69: the total is the
rounded sum of the four sub-scores, with the aircraft term unrounded in the
sum; the `aircraft_score` field is the display-rounded aircraft term. -/
def calculate_game_score (etops_compliant : Bool) (co2_per_passenger : ℚ)
    (capacity_utilization : ℚ) (aircraft_sdg_score : ℚ) : GameScore :=
  { total_score := pyRound (etops_score etops_compliant + env_score co2_per_passenger
      + eff_score capacity_utilization + aircraft_score_raw aircraft_sdg_score)
    etops_score := etops_score etops_compliant
    environmental_score := env_score co2_per_passenger
    efficiency_score := eff_score capacity_utilization
    aircraft_score := pyRound (aircraft_score_raw aircraft_sdg_score) }

theorem env_score_mem (c : ℚ) : 5 ≤ env_score c ∧ env_score c ≤ 25 := by
  unfold env_score
  split_ifs <;> norm_num

theorem eff_score_mem (u : ℚ) : 5 ≤ eff_score u ∧ eff_score u ≤ 25 := by
  unfold eff_score
  split_ifs <;> norm_num

theorem env_score_antitone {c c' : ℚ} (h : c ≤ c') : env_score c' ≤ env_score c := by
  unfold env_score
  split_ifs <;> linarith

theorem eff_score_monotone {u u' : ℚ} (h : u ≤ u') : eff_score u ≤ eff_score u' := by
  unfold eff_score
  split_ifs <;> linarith

theorem etops_score_mem (e : Bool) : 0 ≤ etops_score e ∧ etops_score e ≤ 25 := by
  unfold etops_score
  split_ifs <;> norm_num

theorem aircraft_score_raw_mem {sdg : ℚ} (h0 : 0 ≤ sdg) (h1 : sdg ≤ 10) :
    0 ≤ aircraft_score_raw sdg ∧ aircraft_score_raw sdg ≤ 25 := by
  unfold aircraft_score_raw
  constructor <;> linarith

theorem total_score_bounds (e : Bool) (co2 u sdg : ℚ) (hs0 : 0 ≤ sdg) (hs1 : sdg ≤ 10) :
    0 ≤ (calculate_game_score e co2 u sdg).total_score
      ∧ (calculate_game_score e co2 u sdg).total_score ≤ 100 := by
  have he := etops_score_mem e
  have h1 := env_score_mem co2
  have h2 := eff_score_mem u
  have h3 := aircraft_score_raw_mem hs0 hs1
  constructor
  · exact le_pyRound_of_le (n := 0) (by push_cast; linarith)
  · exact pyRound_le_of_le (n := 100) (by push_cast; linarith)

/-- C1: for valid inputs the total equals the sum of the four sub-scores with
the aircraft term unrounded, the sum then rounded Python-style to the nearest
integer; the aircraft sub-score field is rounded only for display, and the
total lies in [0,100]. -/
theorem C1_total_is_rounded_sum (e : Bool) (co2 u sdg : ℚ)
    (hco2 : 0 ≤ co2) (hu0 : 0 ≤ u) (hu1 : u ≤ 100) (hs0 : 0 ≤ sdg) (hs1 : sdg ≤ 10) :
    (calculate_game_score e co2 u sdg).total_score
        = pyRound (etops_score e + env_score co2 + eff_score u + aircraft_score_raw sdg)
      ∧ (calculate_game_score e co2 u sdg).aircraft_score
        = pyRound (aircraft_score_raw sdg)
      ∧ 0 ≤ (calculate_game_score e co2 u sdg).total_score
      ∧ (calculate_game_score e co2 u sdg).total_score ≤ 100 := by
  refine ⟨rfl, rfl, ?_, ?_⟩
  · exact (total_score_bounds e co2 u sdg hs0 hs1).1
  · exact (total_score_bounds e co2 u sdg hs0 hs1).2

/-- Witness for C1 at the spec's end-to-end example values:
ETOPS compliant, co2 per passenger 150, utilization 90 %, SDG score 8. -/
theorem C1_witness :
    (calculate_game_score true 150 90 8).total_score = 85
      ∧ 0 ≤ (calculate_game_score true 150 90 8).total_score
      ∧ (calculate_game_score true 150 90 8).total_score ≤ 100 := by
  have h := C1_total_is_rounded_sum true 150 90 8 (by norm_num) (by norm_num)
    (by norm_num) (by norm_num) (by norm_num)
  refine ⟨?_, h.2.2.1, h.2.2.2⟩
  norm_num [calculate_game_score, pyRound, etops_score, env_score, eff_score,
    aircraft_score_raw]

/-- C4: the environmental sub-score bands on co2 per passenger and the
efficiency sub-score bands on utilization (as a percentage); values on a
listed boundary fall in the higher (better) band. -/
theorem C4_env_eff_bands (e : Bool) (co2 u sdg : ℚ) :
    (co2 ≤ 50 → (calculate_game_score e co2 u sdg).environmental_score = 25)
  ∧ (50 < co2 → co2 ≤ 100 → (calculate_game_score e co2 u sdg).environmental_score = 20)
  ∧ (100 < co2 → co2 ≤ 150 → (calculate_game_score e co2 u sdg).environmental_score = 15)
  ∧ (150 < co2 → co2 ≤ 200 → (calculate_game_score e co2 u sdg).environmental_score = 10)
  ∧ (200 < co2 → (calculate_game_score e co2 u sdg).environmental_score = 5)
  ∧ (90 ≤ u → (calculate_game_score e co2 u sdg).efficiency_score = 25)
  ∧ (80 ≤ u → u < 90 → (calculate_game_score e co2 u sdg).efficiency_score = 20)
  ∧ (70 ≤ u → u < 80 → (calculate_game_score e co2 u sdg).efficiency_score = 15)
  ∧ (60 ≤ u → u < 70 → (calculate_game_score e co2 u sdg).efficiency_score = 10)
  ∧ (u < 60 → (calculate_game_score e co2 u sdg).efficiency_score = 5) := by
  refine ⟨fun h => ?_, fun h1 h2 => ?_, fun h1 h2 => ?_, fun h1 h2 => ?_, fun h => ?_,
    fun h => ?_, fun h1 h2 => ?_, fun h1 h2 => ?_, fun h1 h2 => ?_, fun h => ?_⟩ <;>
    first
    | (show env_score co2 = _
       unfold env_score
       split_ifs <;> linarith)
    | (show eff_score u = _
       unfold eff_score
       split_ifs <;> linarith)

/-- Witness for C4 at concrete band values, boundary cases included. -/
theorem C4_witness :
    (calculate_game_score true 50 80 8).environmental_score = 25
      ∧ (calculate_game_score true 100 80 8).environmental_score = 20
      ∧ (calculate_game_score true 201 80 8).environmental_score = 5
      ∧ (calculate_game_score true 50 90 8).efficiency_score = 25
      ∧ (calculate_game_score true 50 80 8).efficiency_score = 20
      ∧ (calculate_game_score true 50 59 8).efficiency_score = 5 := by
  refine ⟨(C4_env_eff_bands true 50 80 8).1 (by norm_num),
    (C4_env_eff_bands true 100 80 8).2.1 (by norm_num) (by norm_num),
    (C4_env_eff_bands true 201 80 8).2.2.2.2.1 (by norm_num),
    (C4_env_eff_bands true 50 90 8).2.2.2.2.2.1 (by norm_num),
    (C4_env_eff_bands true 50 80 8).2.2.2.2.2.2.1 (by norm_num) (by norm_num),
    (C4_env_eff_bands true 50 59 8).2.2.2.2.2.2.2.2.2 (by norm_num)⟩

/-- C6 counterexample: the scoring engine accepts out-of-domain inputs and
returns a result instead of failing — a negative co2 per passenger yields
total 95, and an SDG score of 20 (outside [0,10]) yields total 125. -/
theorem C6_counterexample :
    (calculate_game_score true (-1) 95 8).total_score = 95
      ∧ (calculate_game_score true 10 95 20).total_score = 125 := by
  refine ⟨?_, ?_⟩ <;>
    norm_num [calculate_game_score, pyRound, etops_score, env_score, eff_score,
      aircraft_score_raw]

/-- C6 amended: the scoring engine performs no input validation — it never
fails; out-of-domain inputs are scored by the same piecewise rules without
clamping (negative co2 gets the best environmental band, negative utilization
the worst efficiency band, an SDG score outside [0,10] an aircraft term
outside [0,25]); the total can then leave [0,100]. -/
theorem C6_no_validation (e : Bool) (co2 u sdg : ℚ) :
    (co2 < 0 → (calculate_game_score e co2 u sdg).environmental_score = 25)
  ∧ (u < 0 → (calculate_game_score e co2 u sdg).efficiency_score = 5)
  ∧ (10 < sdg → 25 < aircraft_score_raw sdg)
  ∧ (sdg < 0 → aircraft_score_raw sdg < 0)
  ∧ (∃ (e' : Bool) (c' u' s' : ℚ), 10 < s'
      ∧ 100 < (calculate_game_score e' c' u' s').total_score) := by
  refine ⟨?_, ?_, ?_, ?_, ⟨true, 10, 95, 20, by norm_num,
    by norm_num [calculate_game_score, pyRound, etops_score, env_score, eff_score,
      aircraft_score_raw]⟩⟩
  · intro h
    show env_score co2 = 25
    unfold env_score
    split_ifs <;> linarith
  · intro h
    show eff_score u = 5
    unfold eff_score
    split_ifs <;> linarith
  · intro h
    unfold aircraft_score_raw
    linarith
  · intro h
    unfold aircraft_score_raw
    linarith

/-- Witness for C6 amended at concrete out-of-domain inputs. -/
theorem C6_witness :
    (calculate_game_score true (-5) 95 8).environmental_score = 25
      ∧ (calculate_game_score true 40 (-3) 8).efficiency_score = 5
      ∧ 25 < aircraft_score_raw 12 := by
  exact ⟨(C6_no_validation true (-5) 95 8).1 (by norm_num),
    (C6_no_validation true 40 (-3) 8).2.1 (by norm_num),
    (C6_no_validation true 40 95 12).2.2.1 (by norm_num)⟩

/-- C7 counterexample: the total is not non-decreasing in co2 per passenger —
raising co2 from 50 to 51 (other inputs fixed) strictly lowers the total. -/
theorem C7_counterexample :
    (calculate_game_score false 51 50 4).total_score
      < (calculate_game_score false 50 50 4).total_score := by
  norm_num [calculate_game_score, pyRound, etops_score, env_score, eff_score,
    aircraft_score_raw]

/-- C7 amended: the total is non-decreasing in etopsCompliant,
capacityUtilization and aircraftSdgScore, non-increasing in co2PerPassenger
(lower emissions score better), and lies in [0,100] whenever the SDG score is
in its documented range [0,10]. -/
theorem C7_monotonicity :
    (∀ co2 u sdg : ℚ, (calculate_game_score false co2 u sdg).total_score
        ≤ (calculate_game_score true co2 u sdg).total_score)
  ∧ (∀ (e : Bool) (co2 co2' u sdg : ℚ), co2 ≤ co2' →
      (calculate_game_score e co2' u sdg).total_score
        ≤ (calculate_game_score e co2 u sdg).total_score)
  ∧ (∀ (e : Bool) (co2 u u' sdg : ℚ), u ≤ u' →
      (calculate_game_score e co2 u sdg).total_score
        ≤ (calculate_game_score e co2 u' sdg).total_score)
  ∧ (∀ (e : Bool) (co2 u sdg sdg' : ℚ), sdg ≤ sdg' →
      (calculate_game_score e co2 u sdg).total_score
        ≤ (calculate_game_score e co2 u sdg').total_score)
  ∧ (∀ (e : Bool) (co2 u sdg : ℚ), 0 ≤ sdg → sdg ≤ 10 →
      0 ≤ (calculate_game_score e co2 u sdg).total_score
        ∧ (calculate_game_score e co2 u sdg).total_score ≤ 100) := by
  refine ⟨?_, ?_, ?_, ?_, ?_⟩
  · intro co2 u sdg
    apply pyRound_mono
    have : etops_score false ≤ etops_score true := by unfold etops_score; norm_num
    linarith
  · intro e co2 co2' u sdg h
    apply pyRound_mono
    have := env_score_antitone h
    linarith
  · intro e co2 u u' sdg h
    apply pyRound_mono
    have := eff_score_monotone h
    linarith
  · intro e co2 u sdg sdg' h
    apply pyRound_mono
    have : aircraft_score_raw sdg ≤ aircraft_score_raw sdg' := by
      unfold aircraft_score_raw
      linarith
    linarith
  · intro e co2 u sdg h0 h1
    exact total_score_bounds e co2 u sdg h0 h1

/-- Witness for C7 amended at concrete inputs. -/
theorem C7_witness :
    (calculate_game_score false 40 85 6).total_score
        ≤ (calculate_game_score true 40 85 6).total_score
      ∧ (calculate_game_score false 120 85 6).total_score
        ≤ (calculate_game_score false 40 85 6).total_score
      ∧ (calculate_game_score false 40 60 6).total_score
        ≤ (calculate_game_score false 40 85 6).total_score
      ∧ (calculate_game_score false 40 85 6).total_score
        ≤ (calculate_game_score false 40 85 9).total_score
      ∧ 0 ≤ (calculate_game_score false 40 85 6).total_score
      ∧ (calculate_game_score false 40 85 6).total_score ≤ 100 := by
  refine ⟨C7_monotonicity.1 40 85 6,
    C7_monotonicity.2.1 false 40 120 85 6 (by norm_num),
    C7_monotonicity.2.2.1 false 40 60 85 6 (by norm_num),
    C7_monotonicity.2.2.2.1 false 40 85 6 9 (by norm_num),
    (C7_monotonicity.2.2.2.2 false 40 85 6 (by norm_num) (by norm_num)).1,
    (C7_monotonicity.2.2.2.2 false 40 85 6 (by norm_num) (by norm_num)).2⟩

/-- Result record of `get_title_and_badge` (src/app.py lines 71-114). -/
structure TitleResult where
  title : String
  badge : String
  color : String
  message : String
  tier : String
  deriving Repr, DecidableEq

/-- `get_title_and_badge` from src/app.py lines 71-114: fixed descending
score thresholds mapping a numeric score to title, badge, color class,
message and tier label. -/
def get_title_and_badge (score : ℚ) : TitleResult :=
  if 90 ≤ score then
    { title := "🏆 エコ航空の達人"
      badge := "🌟"
      color := "success"
      message := "素晴らしい！持続可能な航空運航のエキスパートです！"
      tier := "レジェンド" }
  else if 80 ≤ score then
    { title := "✈️ 優秀な経営者"
      badge := "🥇"
      color := "success"
      message := "優秀な運航計画です！環境と効率のバランスが取れています。"
      tier := "エキスパート" }
  else if 70 ≤ score then
    { title := "🌱 駆け出し経営者"
      badge := "🥈"
      color := "warning"
      message := "良いスタートです！さらなる改善で上位ランクを目指しましょう。"
      tier := "中級者" }
  else if 60 ≤ score then
    { title := "📚 研修生"
      badge := "🥉"
      color := "warning"
      message := "基本はできています。ETOPS適合性と環境性能の向上を目指しましょう。"
      tier := "初級者" }
  else
    { title := "🔧 要改善"
      badge := "⚠️"
      color := "error"
      message := "運航計画の見直しが必要です。機材選択から再検討してみてください。"
      tier := "見習い" }

/-- C3: the title classifier partitions all numeric scores into five tiers
with each boundary value belonging to the higher tier: score ≥ 90 is Legend
(レジェンド), 80-89 Expert (エキスパート), 70-79 Intermediate (中級者),
60-69 Beginner (初級者), below 60 the lowest tier (見習い); in particular
classify(90) is Legend, classify(89) Expert, classify(60) Beginner and
classify(59) the lowest tier. -/
theorem C3_title_partition (s : ℚ) :
    (90 ≤ s → (get_title_and_badge s).tier = "レジェンド")
  ∧ (80 ≤ s → s < 90 → (get_title_and_badge s).tier = "エキスパート")
  ∧ (70 ≤ s → s < 80 → (get_title_and_badge s).tier = "中級者")
  ∧ (60 ≤ s → s < 70 → (get_title_and_badge s).tier = "初級者")
  ∧ (s < 60 → (get_title_and_badge s).tier = "見習い")
  ∧ (get_title_and_badge 90).tier = "レジェンド"
  ∧ (get_title_and_badge 89).tier = "エキスパート"
  ∧ (get_title_and_badge 60).tier = "初級者"
  ∧ (get_title_and_badge 59).tier = "見習い" := by
  refine ⟨fun h => ?_, fun h1 h2 => ?_, fun h1 h2 => ?_, fun h1 h2 => ?_, fun h => ?_,
    ?_, ?_, ?_, ?_⟩ <;>
    (unfold get_title_and_badge
     split_ifs <;> first | rfl | linarith)

/-- Witness for C3 at one interior score of each tier. -/
theorem C3_witness :
    (get_title_and_badge 95).tier = "レジェンド"
      ∧ (get_title_and_badge 85).tier = "エキスパート"
      ∧ (get_title_and_badge 75).tier = "中級者"
      ∧ (get_title_and_badge 65).tier = "初級者"
      ∧ (get_title_and_badge 30).tier = "見習い" := by
  exact ⟨(C3_title_partition 95).1 (by norm_num),
    (C3_title_partition 85).2.1 (by norm_num) (by norm_num),
    (C3_title_partition 75).2.2.1 (by norm_num) (by norm_num),
    (C3_title_partition 65).2.2.2.1 (by norm_num) (by norm_num),
    (C3_title_partition 30).2.2.2.2.1 (by norm_num)⟩

/-- C10: the title classifier is a total function on all numeric scores
(the embedding is a total Lean function, mirroring the raise-free Python
if/elif/else chain): any score above 100 lands in the Legend tier and any
negative score in the lowest tier. -/
theorem C10_classifier_total (s : ℚ) :
    (100 < s → (get_title_and_badge s).tier = "レジェンド")
  ∧ (s < 0 → (get_title_and_badge s).tier = "見習い") := by
  refine ⟨fun h => ?_, fun h => ?_⟩ <;>
    (unfold get_title_and_badge
     split_ifs <;> first | rfl | linarith)

/-- Witness for C10 at scores outside [0,100]. -/
theorem C10_witness :
    (get_title_and_badge 150).tier = "レジェンド"
      ∧ (get_title_and_badge (-5)).tier = "見習い" := by
  exact ⟨(C10_classifier_total 150).1 (by norm_num),
    (C10_classifier_total (-5)).2 (by norm_num)⟩

/-- One challenge route descriptor as stored in
`st.session_state.challenge_routes` (src/app.py lines 443-467, 658-663). -/
structure ChallengeRoute where
  route_num : ℕ
  departure : String
  arrival : String
  distance_km : ℚ
  passengers : ℕ
  completed : Bool
  score : ℚ
  deriving Repr, DecidableEq

/-- Challenge-mode session state: the generated route list, the index of the
current route and the running total (src/app.py lines 436-438). -/
structure ChallengeState where
  challenge_routes : List ChallengeRoute
  current_route_index : ℕ
  challenge_total_score : ℚ
  deriving Repr, DecidableEq

/-- Modelled from the spec: `generate_challenge_routes` is called at
src/app.py line 436 but is not defined anywhere in the source; per spec §4.5
`start` generates 10 route descriptors, all marked incomplete, and resets the
index and running total to 0 (src/app.py lines 436-438 for the resets).
The generated descriptors are a parameter, constrained in the theorems to be
10 incomplete entries as the spec demands. -/
def start (generated : List ChallengeRoute) : ChallengeState :=
  { challenge_routes := generated
    current_route_index := 0
    challenge_total_score := 0 }

/-- In-place update `challenge_routes[i].completed = True;
challenge_routes[i].score = score` (src/app.py lines 660-661). -/
def markCompleted : List ChallengeRoute → ℕ → ℚ → List ChallengeRoute
  | [], _, _ => []
  | r :: rs, 0, s => { r with completed := true, score := s } :: rs
  | r :: rs, n + 1, s => r :: markCompleted rs n s

/-- The `complete_route` button handler (src/app.py lines 658-663): mark the
current route complete with the given score, add the score to the running
total and advance the index. -/
def complete_route (score : ℚ) (st : ChallengeState) : ChallengeState :=
  { challenge_routes := markCompleted st.challenge_routes st.current_route_index score
    current_route_index := st.current_route_index + 1
    challenge_total_score := st.challenge_total_score + score }

/-- Sum of the scores of the entries marked complete. -/
def completedSum (rs : List ChallengeRoute) : ℚ :=
  ((rs.filter (fun r => r.completed)).map (fun r => r.score)).sum

/-- Sequentially apply `complete_route` for each score in the list. -/
def runChallenge (scores : List ℚ) (st : ChallengeState) : ChallengeState :=
  scores.foldl (fun acc s => complete_route s acc) st

theorem markCompleted_length (rs : List ChallengeRoute) (i : ℕ) (s : ℚ) :
    (markCompleted rs i s).length = rs.length := by
  induction rs generalizing i with
  | nil => rfl
  | cons r rs ih =>
    cases i with
    | zero => simp [markCompleted]
    | succ n => simp [markCompleted, ih]

theorem markCompleted_getElem? (rs : List ChallengeRoute) (i j : ℕ) (s : ℚ)
    (h : i ≠ j) : (markCompleted rs i s)[j]? = rs[j]? := by
  induction rs generalizing i j with
  | nil => rfl
  | cons r rs ih =>
    cases i with
    | zero =>
      cases j with
      | zero => exact absurd rfl h
      | succ m => simp [markCompleted]
    | succ n =>
      cases j with
      | zero => simp [markCompleted]
      | succ m =>
        simp only [markCompleted, List.getElem?_cons_succ]
        exact ih n m (by omega)

theorem completedSum_markCompleted (rs : List ChallengeRoute) (i : ℕ) (s : ℚ)
    (r : ChallengeRoute) (hget : rs[i]? = some r) (hinc : r.completed = false) :
    completedSum (markCompleted rs i s) = completedSum rs + s := by
  induction rs generalizing i with
  | nil => simp at hget
  | cons a rs ih =>
    cases i with
    | zero =>
      simp only [List.getElem?_cons_zero, Option.some_inj] at hget
      subst hget
      simp [markCompleted, completedSum, hinc]
      ring
    | succ n =>
      simp only [List.getElem?_cons_succ] at hget
      have ihn := ih n hget
      by_cases hc : a.completed <;>
        simp [markCompleted, completedSum, hc] at ihn ⊢ <;> linarith

/-- Entries at or beyond the index are untouched by `complete_route`s run so
far; this is the inductive invariant for C9. -/
def entriesIncompleteFrom (st : ChallengeState) : Prop :=
  ∀ j, st.current_route_index ≤ j → ∀ r, st.challenge_routes[j]? = some r →
    r.completed = false

theorem runChallenge_invariant (scores : List ℚ) :
    ∀ st : ChallengeState,
      st.current_route_index + scores.length ≤ st.challenge_routes.length →
      entriesIncompleteFrom st →
      (runChallenge scores st).challenge_routes.length = st.challenge_routes.length
        ∧ (runChallenge scores st).current_route_index
            = st.current_route_index + scores.length
        ∧ (runChallenge scores st).challenge_total_score
            = st.challenge_total_score + scores.sum
        ∧ completedSum (runChallenge scores st).challenge_routes
            = completedSum st.challenge_routes + scores.sum := by
  induction scores with
  | nil => intro st _ _; simp [runChallenge]
  | cons s rest ih =>
    intro st hlen hinc
    have hidx : st.current_route_index < st.challenge_routes.length := by
      simp at hlen; omega
    have hr : st.challenge_routes[st.current_route_index]?
        = some (st.challenge_routes.get ⟨st.current_route_index, hidx⟩) := by
      rw [List.getElem?_eq_getElem hidx]
      rfl
    set r := st.challenge_routes.get ⟨st.current_route_index, hidx⟩ with hrdef
    have hrinc : r.completed = false := hinc st.current_route_index le_rfl r hr
    have hstep : runChallenge (s :: rest) st = runChallenge rest (complete_route s st) := by
      simp [runChallenge]
    have hlen' : (complete_route s st).current_route_index + rest.length
        ≤ (complete_route s st).challenge_routes.length := by
      simp only [complete_route, markCompleted_length]
      simp at hlen
      omega
    have hinc' : entriesIncompleteFrom (complete_route s st) := by
      intro j hj r' hr'
      simp only [complete_route] at hj hr'
      rw [markCompleted_getElem? _ _ _ _ (by omega)] at hr'
      exact hinc j (by omega) r' hr'
    have hrec := ih (complete_route s st) hlen' hinc'
    rw [hstep]
    refine ⟨?_, ?_, ?_, ?_⟩
    · rw [hrec.1]
      simp [complete_route, markCompleted_length]
    · rw [hrec.2.1]
      simp only [complete_route, List.length_cons]
      omega
    · rw [hrec.2.2.1]
      simp only [complete_route, List.sum_cons]
      ring
    · rw [hrec.2.2.2]
      simp only [complete_route, List.sum_cons]
      rw [completedSum_markCompleted st.challenge_routes st.current_route_index s r hr hrinc]
      ring

/-- C9: starting a challenge with 10 incomplete generated routes and then
completing k ≤ 10 routes with scores s_1..s_k leaves the running total equal
to s_1+...+s_k, which is the sum over entries marked complete; with k = 10 the
index reaches the list length (the Completed state) and the reported average
is the running total divided by 10. -/
theorem C9_challenge_aggregation (generated : List ChallengeRoute) (scores : List ℚ)
    (hlen : generated.length = 10) (hk : scores.length ≤ 10)
    (hincomplete : ∀ r ∈ generated, r.completed = false) :
    (runChallenge scores (start generated)).challenge_total_score = scores.sum
      ∧ (runChallenge scores (start generated)).challenge_total_score
          = completedSum (runChallenge scores (start generated)).challenge_routes
      ∧ (scores.length = 10 →
          (runChallenge scores (start generated)).challenge_routes.length
              ≤ (runChallenge scores (start generated)).current_route_index
            ∧ (runChallenge scores (start generated)).challenge_total_score / 10
              = scores.sum / 10) := by
  have hbase : entriesIncompleteFrom (start generated) := by
    intro j _ r hr
    exact hincomplete r (List.getElem?_mem hr)
  have hlen0 : (start generated).current_route_index + scores.length
      ≤ (start generated).challenge_routes.length := by
    simp [start, hlen]
    omega
  have h := runChallenge_invariant scores (start generated) hlen0 hbase
  have hcs0 : completedSum (start generated).challenge_routes = 0 := by
    simp only [start]
    unfold completedSum
    have : generated.filter (fun r => r.completed) = [] := by
      apply List.filter_eq_nil_iff.mpr
      intro r hr
      simp [hincomplete r hr]
    rw [this]
    simp
  refine ⟨?_, ?_, ?_⟩
  · rw [h.2.2.1]
    simp [start]
  · rw [h.2.2.1, h.2.2.2, hcs0]
    simp [start]
  · intro h10
    constructor
    · rw [h.1, h.2.1]
      simp [start, hlen, h10]
    · rw [h.2.2.1]
      simp [start]

/-- Witness for C9: a concrete 10-route challenge completed with scores
85, 90, 70, 60, 95, 80, 75, 65, 100, 55 has running total 775 and reaches
the Completed state. -/
theorem C9_witness :
    (runChallenge [85, 90, 70, 60, 95, 80, 75, 65, 100, 55]
        (start ((List.range 10).map (fun n =>
          { route_num := n + 1
            departure := "NRT"
            arrival := "LAX"
            distance_km := 8815
            passengers := 250
            completed := false
            score := 0 })))).challenge_total_score = 775 := by
  have h := C9_challenge_aggregation
    ((List.range 10).map (fun n =>
      { route_num := n + 1
        departure := "NRT"
        arrival := "LAX"
        distance_km := 8815
        passengers := 250
        completed := false
        score := 0 }))
    [85, 90, 70, 60, 95, 80, 75, 65, 100, 55]
    (by simp) (by simp)
    (by intro r hr; simp at hr; obtain ⟨n, _, hn⟩ := hr; rw [← hn])
  rw [h.1]
  norm_num

/-- A (latitude, longitude) pair in degrees. -/
structure Coord where
  lat : ℝ
  lon : ℝ

/-- Degrees to radians. -/
noncomputable def deg2rad (x : ℝ) : ℝ := x * Real.pi / 180

/-- Modelled from the spec: `geopy.distance.geodesic(..).km` is third-party
library code not present in the repository; per spec §4.1 `distance` is the
great-circle distance from a standard spherical geodesic formula. This is the
spherical law of cosines with mean Earth radius 6371 km. -/
noncomputable def gcDist (p q : Coord) : ℝ :=
  6371 * Real.arccos (Real.sin (deg2rad p.lat) * Real.sin (deg2rad q.lat)
    + Real.cos (deg2rad p.lat) * Real.cos (deg2rad q.lat)
      * Real.cos (deg2rad p.lon - deg2rad q.lon))

theorem gcDist_nonneg (p q : Coord) : 0 ≤ gcDist p q :=
  mul_nonneg (by norm_num) (Real.arccos_nonneg _)

/-- The i-th sampled point (i = 0..20) along the straight-line linear
interpolation of latitude and longitude (src/app.py lines 175-178). -/
noncomputable def sample_point (dep_coord arr_coord : Coord) (i : ℕ) : Coord :=
  { lat := dep_coord.lat + (i / 20 : ℝ) * (arr_coord.lat - dep_coord.lat)
    lon := dep_coord.lon + (i / 20 : ℝ) * (arr_coord.lon - dep_coord.lon) }

/-- The inner loop of `calculate_etops_requirement` (src/app.py lines
181-184): running minimum over all airports, started at `float('inf')`
(modelled as `⊤ : WithTop ℝ`). -/
noncomputable def min_dist_fold (d : Coord → Coord → ℝ) (p : Coord)
    (airports : List Coord) : WithTop ℝ :=
  airports.foldl (fun m a => min m ((d p a : ℝ) : WithTop ℝ)) ⊤

theorem min_dist_fold_nil (d : Coord → Coord → ℝ) (p : Coord) :
    min_dist_fold d p [] = ⊤ := rfl

/-- `calculate_etops_requirement` from src/app.py lines 169-188: 21 sampled
points along the linearly interpolated route, running maximum (started at 0)
of the per-point minimum distance to any airport in the table; the distance
function is a parameter (the source calls `geodesic(..).km`). -/
noncomputable def calculate_etops_requirement (d : Coord → Coord → ℝ)
    (dep_coord arr_coord : Coord) (airports : List Coord) : WithTop ℝ :=
  (List.range 21).foldl
    (fun m i => max m (min_dist_fold d (sample_point dep_coord arr_coord i) airports))
    ((0 : ℝ) : WithTop ℝ)

/-- The spec's per-point quantity: the minimum `distance()` to any airport in
the alternate set (real-valued; 0 for an empty set, a case the spec leaves
undefined). -/
noncomputable def min_dist_to (d : Coord → Coord → ℝ) (p : Coord) : List Coord → ℝ
  | [] => 0
  | a :: as => as.foldl (fun m x => min m (d p x)) (d p a)

/-- The worst sampled-point distance to the nearer of the two endpoints. -/
noncomputable def worst_endpoint_gap (d : Coord → Coord → ℝ) (dep_coord arr_coord : Coord) : ℝ :=
  (List.range 21).foldl
    (fun m i => max m (min (d (sample_point dep_coord arr_coord i) dep_coord)
      (d (sample_point dep_coord arr_coord i) arr_coord))) 0

theorem foldl_min_le_init {α β : Type} [LinearOrder α] (f : β → α) (l : List β) (b : α) :
    l.foldl (fun m y => min m (f y)) b ≤ b := by
  induction l generalizing b with
  | nil => simp
  | cons a t ih => exact le_trans (ih (min b (f a))) (min_le_left _ _)

theorem foldl_min_le_mem {α β : Type} [LinearOrder α] (f : β → α) (l : List β) (b : α)
    (x : β) (hx : x ∈ l) : l.foldl (fun m y => min m (f y)) b ≤ f x := by
  induction l generalizing b with
  | nil => simp at hx
  | cons a t ih =>
    rcases List.mem_cons.mp hx with h | h
    · subst h
      exact le_trans (foldl_min_le_init f t (min b (f x))) (min_le_right _ _)
    · exact ih (min b (f a)) h

theorem foldl_min_cases {α β : Type} [LinearOrder α] (f : β → α) (l : List β) (b : α) :
    l.foldl (fun m y => min m (f y)) b = b
      ∨ ∃ x ∈ l, l.foldl (fun m y => min m (f y)) b = f x := by
  induction l generalizing b with
  | nil => left; rfl
  | cons a t ih =>
    rcases ih (min b (f a)) with h | ⟨x, hx, h⟩
    · rcases min_choice b (f a) with hm | hm
      · left
        simp only [List.foldl_cons]
        rw [h, hm]
      · right
        exact ⟨a, List.mem_cons_self a t, by simp only [List.foldl_cons]; rw [h, hm]⟩
    · right
      exact ⟨x, List.mem_cons_of_mem a hx, h⟩

theorem le_foldl_min {α β : Type} [LinearOrder α] (f : β → α) (l : List β) (b c : α)
    (hb : c ≤ b) (hf : ∀ x ∈ l, c ≤ f x) : c ≤ l.foldl (fun m y => min m (f y)) b := by
  induction l generalizing b with
  | nil => exact hb
  | cons a t ih =>
    exact ih (min b (f a)) (le_min hb (hf a (List.mem_cons_self a t)))
      (fun x hx => hf x (List.mem_cons_of_mem a hx))

theorem foldl_max_ge_init {α β : Type} [LinearOrder α] (f : β → α) (l : List β) (b : α) :
    b ≤ l.foldl (fun m y => max m (f y)) b := by
  induction l generalizing b with
  | nil => simp
  | cons a t ih => exact le_trans (le_max_left _ _) (ih (max b (f a)))

theorem foldl_max_ge_mem {α β : Type} [LinearOrder α] (f : β → α) (l : List β) (b : α)
    (x : β) (hx : x ∈ l) : f x ≤ l.foldl (fun m y => max m (f y)) b := by
  induction l generalizing b with
  | nil => simp at hx
  | cons a t ih =>
    rcases List.mem_cons.mp hx with h | h
    · subst h
      exact le_trans (le_max_right _ _) (foldl_max_ge_init f t (max b (f x)))
    · exact ih (max b (f a)) h

theorem foldl_max_cases {α β : Type} [LinearOrder α] (f : β → α) (l : List β) (b : α) :
    l.foldl (fun m y => max m (f y)) b = b
      ∨ ∃ x ∈ l, l.foldl (fun m y => max m (f y)) b = f x := by
  induction l generalizing b with
  | nil => left; rfl
  | cons a t ih =>
    rcases ih (max b (f a)) with h | ⟨x, hx, h⟩
    · rcases max_choice b (f a) with hm | hm
      · left
        simp only [List.foldl_cons]
        rw [h, hm]
      · right
        exact ⟨a, List.mem_cons_self a t, by simp only [List.foldl_cons]; rw [h, hm]⟩
    · right
      exact ⟨x, List.mem_cons_of_mem a hx, h⟩

theorem foldl_max_mono {α β : Type} [LinearOrder α] (f g : β → α) (l : List β) (b b' : α)
    (hb : b ≤ b') (hfg : ∀ x ∈ l, f x ≤ g x) :
    l.foldl (fun m y => max m (f y)) b ≤ l.foldl (fun m y => max m (g y)) b' := by
  induction l generalizing b b' with
  | nil => exact hb
  | cons a t ih =>
    exact ih (max b (f a)) (max b' (g a))
      (max_le_max hb (hfg a (List.mem_cons_self a t)))
      (fun x hx => hfg x (List.mem_cons_of_mem a hx))

theorem foldl_min_coe {β : Type} (f : β → ℝ) (l : List β) (r : ℝ) :
    l.foldl (fun m y => min m ((f y : ℝ) : WithTop ℝ)) (r : WithTop ℝ)
      = ((l.foldl (fun m y => min m (f y)) r : ℝ) : WithTop ℝ) := by
  induction l generalizing r with
  | nil => rfl
  | cons a t ih =>
    simp only [List.foldl_cons, ← WithTop.coe_min]
    exact ih (min r (f a))

theorem foldl_max_coe {β : Type} (f : β → ℝ) (l : List β) (r : ℝ) :
    l.foldl (fun m y => max m ((f y : ℝ) : WithTop ℝ)) (r : WithTop ℝ)
      = ((l.foldl (fun m y => max m (f y)) r : ℝ) : WithTop ℝ) := by
  induction l generalizing r with
  | nil => rfl
  | cons a t ih =>
    simp only [List.foldl_cons, ← WithTop.coe_max]
    exact ih (max r (f a))

theorem min_dist_fold_eq_coe (d : Coord → Coord → ℝ) (airports : List Coord)
    (hne : airports ≠ []) (p : Coord) :
    min_dist_fold d p airports = ((min_dist_to d p airports : ℝ) : WithTop ℝ) := by
  cases airports with
  | nil => exact absurd rfl hne
  | cons a as =>
    unfold min_dist_fold min_dist_to
    simp only [List.foldl_cons]
    rw [min_eq_right (le_top : ((d p a : ℝ) : WithTop ℝ) ≤ ⊤)]
    exact foldl_min_coe (fun x => d p x) as (d p a)

theorem calculate_etops_requirement_eq_coe (d : Coord → Coord → ℝ)
    (dep_coord arr_coord : Coord) (airports : List Coord) (hne : airports ≠ []) :
    calculate_etops_requirement d dep_coord arr_coord airports
      = (((List.range 21).foldl
          (fun m i => max m (min_dist_to d (sample_point dep_coord arr_coord i) airports))
          0 : ℝ) : WithTop ℝ) := by
  unfold calculate_etops_requirement
  simp only [min_dist_fold_eq_coe d airports hne]
  exact foldl_max_coe
    (fun i => min_dist_to d (sample_point dep_coord arr_coord i) airports)
    (List.range 21) 0

theorem min_dist_to_nonneg (d : Coord → Coord → ℝ) (p : Coord) (l : List Coord)
    (hd : ∀ a b : Coord, 0 ≤ d a b) : 0 ≤ min_dist_to d p l := by
  cases l with
  | nil => exact le_refl 0
  | cons a as =>
    exact le_foldl_min (fun x => d p x) as (d p a) 0 (hd p a) (fun x _ => hd p x)

theorem min_dist_to_le_mem (d : Coord → Coord → ℝ) (p : Coord) (l : List Coord)
    (a : Coord) (ha : a ∈ l) : min_dist_to d p l ≤ d p a := by
  cases l with
  | nil => simp at ha
  | cons b bs =>
    rcases List.mem_cons.mp ha with h | h
    · subst h
      exact foldl_min_le_init (fun x => d p x) bs (d p a)
    · exact foldl_min_le_mem (fun x => d p x) bs (d p b) a h

theorem min_dist_to_attained (d : Coord → Coord → ℝ) (p : Coord) (l : List Coord)
    (hne : l ≠ []) : ∃ a ∈ l, min_dist_to d p l = d p a := by
  cases l with
  | nil => exact absurd rfl hne
  | cons b bs =>
    rcases foldl_min_cases (fun x => d p x) bs (d p b) with h | ⟨x, hx, h⟩
    · exact ⟨b, List.mem_cons_self b bs, h⟩
    · exact ⟨x, List.mem_cons_of_mem b hx, h⟩

/-- C2: for a non-empty alternate set (distances being nonnegative, as
geodesic distances are), the ETOPS requirement is a finite value r that is an
upper bound of, and attained among, the 21 per-point minimum distances, where
the i-th point is the linear lat/lon interpolation at ratio i/20 and each
per-point value is the minimum distance to any airport in the set. -/
theorem C2_etops_requirement_spec (d : Coord → Coord → ℝ)
    (dep_coord arr_coord : Coord) (airports : List Coord)
    (hne : airports ≠ []) (hd : ∀ a b : Coord, 0 ≤ d a b) :
    ∃ r : ℝ,
      calculate_etops_requirement d dep_coord arr_coord airports = (r : WithTop ℝ)
        ∧ (∀ i, i < 21 →
            min_dist_to d (sample_point dep_coord arr_coord i) airports ≤ r)
        ∧ (∃ i, i < 21
            ∧ r = min_dist_to d (sample_point dep_coord arr_coord i) airports)
        ∧ (∀ i, i < 21 → ∀ a ∈ airports,
            min_dist_to d (sample_point dep_coord arr_coord i) airports
              ≤ d (sample_point dep_coord arr_coord i) a)
        ∧ (∀ i, i < 21 → ∃ a ∈ airports,
            min_dist_to d (sample_point dep_coord arr_coord i) airports
              = d (sample_point dep_coord arr_coord i) a) := by
  refine ⟨(List.range 21).foldl
      (fun m i => max m (min_dist_to d (sample_point dep_coord arr_coord i) airports)) 0,
    calculate_etops_requirement_eq_coe d dep_coord arr_coord airports hne, ?_, ?_, ?_, ?_⟩
  · intro i hi
    exact foldl_max_ge_mem
      (fun i => min_dist_to d (sample_point dep_coord arr_coord i) airports)
      (List.range 21) 0 i (List.mem_range.mpr hi)
  · rcases foldl_max_cases
        (fun i => min_dist_to d (sample_point dep_coord arr_coord i) airports)
        (List.range 21) 0 with h | ⟨i, hi, h⟩
    · refine ⟨0, by norm_num, ?_⟩
      have hub := foldl_max_ge_mem
        (fun i => min_dist_to d (sample_point dep_coord arr_coord i) airports)
        (List.range 21) 0 0 (List.mem_range.mpr (by norm_num))
      have hnn := min_dist_to_nonneg d (sample_point dep_coord arr_coord 0) airports hd
      rw [h] at hub
      linarith
    · exact ⟨i, List.mem_range.mp hi, h⟩
  · intro i _ a ha
    exact min_dist_to_le_mem d (sample_point dep_coord arr_coord i) airports a ha
  · intro i _
    exact min_dist_to_attained d (sample_point dep_coord arr_coord i) airports hne

/-- Witness for C2: the NRT-LAX endpoints as the alternate set, with the
spec-modelled great-circle distance. -/
theorem C2_witness :
    ∃ r : ℝ,
      calculate_etops_requirement gcDist ⟨35.5533, 139.7811⟩ ⟨33.9425, -118.4081⟩
          [⟨35.5533, 139.7811⟩, ⟨33.9425, -118.4081⟩] = (r : WithTop ℝ)
        ∧ (∀ i, i < 21 →
            min_dist_to gcDist
              (sample_point ⟨35.5533, 139.7811⟩ ⟨33.9425, -118.4081⟩ i)
              [⟨35.5533, 139.7811⟩, ⟨33.9425, -118.4081⟩] ≤ r)
        ∧ (∃ i, i < 21
            ∧ r = min_dist_to gcDist
              (sample_point ⟨35.5533, 139.7811⟩ ⟨33.9425, -118.4081⟩ i)
              [⟨35.5533, 139.7811⟩, ⟨33.9425, -118.4081⟩]) := by
  obtain ⟨r, h1, h2, h3, _, _⟩ := C2_etops_requirement_spec gcDist
    ⟨35.5533, 139.7811⟩ ⟨33.9425, -118.4081⟩
    [⟨35.5533, 139.7811⟩, ⟨33.9425, -118.4081⟩]
    (by simp) gcDist_nonneg
  exact ⟨r, h1, h2, h3⟩

theorem foldl_max_top_acc {β : Type} (l : List β) :
    l.foldl (fun m (_ : β) => max m (⊤ : WithTop ℝ)) ⊤ = ⊤ := by
  induction l with
  | nil => rfl
  | cons a t ih =>
    simp only [List.foldl_cons, max_self]
    exact ih

theorem etops_requirement_nil (d : Coord → Coord → ℝ) (dep_coord arr_coord : Coord) :
    calculate_etops_requirement d dep_coord arr_coord [] = ⊤ := by
  unfold calculate_etops_requirement
  simp only [min_dist_fold_nil]
  have h20 : List.range 21 = List.range 20 ++ [20] := by
    rw [List.range_succ]
  rw [h20, List.foldl_append]
  simp only [List.foldl_cons, List.foldl_nil]
  rw [max_eq_right le_top]

/-- C5 counterexample: called with an empty alternate set at concrete
coordinates, `calculate_etops_requirement` returns `float('inf')` (modelled
as `⊤`) — it returns a value instead of failing with `InvalidInputError`
(the source raises nothing; no such error exists in it). -/
theorem C5_counterexample :
    calculate_etops_requirement gcDist ⟨35, 139⟩ ⟨40, -73⟩ [] = ⊤ :=
  etops_requirement_nil gcDist ⟨35, 139⟩ ⟨40, -73⟩

/-- C5 amended: with an empty alternate-airport set the function raises no
error and returns `float('inf')` (the inner minimum never updates, so the
running maximum becomes infinity). -/
theorem C5_empty_returns_inf (d : Coord → Coord → ℝ) (dep_coord arr_coord : Coord) :
    calculate_etops_requirement d dep_coord arr_coord [] = ⊤ :=
  etops_requirement_nil d dep_coord arr_coord

/-- C8 amended: when departure and arrival are both in the alternate set, the
ETOPS requirement is bounded by the worst sampled-point distance to the
nearer of the two endpoints; the original bound by `distance(dep, arr)`
itself fails on antimeridian-crossing routes, where linearly interpolated
points are far from the whole geodesic (see the counterexample). -/
theorem C8_bounded_by_endpoint_gap (d : Coord → Coord → ℝ)
    (dep_coord arr_coord : Coord) (alts : List Coord)
    (hdep : dep_coord ∈ alts) (harr : arr_coord ∈ alts)
    (hd : ∀ a b : Coord, 0 ≤ d a b) :
    calculate_etops_requirement d dep_coord arr_coord alts
      ≤ ((worst_endpoint_gap d dep_coord arr_coord : ℝ) : WithTop ℝ) := by
  have hne : alts ≠ [] := by
    intro h
    rw [h] at hdep
    simp at hdep
  rw [calculate_etops_requirement_eq_coe d dep_coord arr_coord alts hne]
  unfold worst_endpoint_gap
  rw [WithTop.coe_le_coe]
  apply foldl_max_mono _ _ _ _ _ le_rfl
  intro i _
  exact le_min (min_dist_to_le_mem d _ alts dep_coord hdep)
    (min_dist_to_le_mem d _ alts arr_coord harr)

/-- Witness for C8 amended: a short equatorial route whose endpoints form the
alternate set, with the spec-modelled great-circle distance. -/
theorem C8_witness :
    calculate_etops_requirement gcDist ⟨0, 0⟩ ⟨0, 10⟩ [⟨0, 0⟩, ⟨0, 10⟩]
      ≤ ((worst_endpoint_gap gcDist ⟨0, 0⟩ ⟨0, 10⟩ : ℝ) : WithTop ℝ) :=
  C8_bounded_by_endpoint_gap gcDist ⟨0, 0⟩ ⟨0, 10⟩ [⟨0, 0⟩, ⟨0, 10⟩]
    (by simp) (by simp) gcDist_nonneg

theorem gcDist_equator (l1 l2 : ℝ) :
    gcDist ⟨0, l1⟩ ⟨0, l2⟩ = 6371 * Real.arccos (Real.cos (deg2rad l1 - deg2rad l2)) := by
  unfold gcDist deg2rad
  norm_num

theorem arccos_cos_170deg :
    Real.arccos (Real.cos (170 * Real.pi / 180)) = 170 * Real.pi / 180 :=
  Real.arccos_cos (by positivity) (by linarith [Real.pi_pos])

theorem gcDist_mid_to_dep :
    gcDist ⟨0, 0⟩ ⟨0, -170⟩ = 6371 * (170 * Real.pi / 180) := by
  rw [gcDist_equator 0 (-170)]
  have h : deg2rad 0 - deg2rad (-170) = 170 * Real.pi / 180 := by
    unfold deg2rad
    ring
  rw [h, arccos_cos_170deg]

theorem gcDist_mid_to_arr :
    gcDist ⟨0, 0⟩ ⟨0, 170⟩ = 6371 * (170 * Real.pi / 180) := by
  rw [gcDist_equator 0 170]
  have h : deg2rad 0 - deg2rad 170 = -(170 * Real.pi / 180) := by
    unfold deg2rad
    ring
  rw [h, Real.cos_neg, arccos_cos_170deg]

theorem gcDist_dep_to_arr :
    gcDist ⟨0, -170⟩ ⟨0, 170⟩ = 6371 * (20 * Real.pi / 180) := by
  rw [gcDist_equator (-170) 170]
  have h1 : deg2rad (-170) - deg2rad 170 = -(340 * Real.pi / 180) := by
    unfold deg2rad
    ring
  rw [h1, Real.cos_neg]
  have h2 : (340 : ℝ) * Real.pi / 180 = 2 * Real.pi - 20 * Real.pi / 180 := by
    ring
  rw [h2, Real.cos_two_pi_sub]
  rw [Real.arccos_cos (by positivity) (by linarith [Real.pi_pos])]

/-- C8 counterexample: on the equatorial route from (0,-170) to (0,170),
whose endpoints are the whole alternate set, the ETOPS requirement exceeds
the direct great-circle distance: the direct connection crosses the
antimeridian (≈ 20° of arc) while linear lat/lon interpolation drags the
sampled midpoint to (0,0), 170° of arc from both endpoints. -/
theorem C8_counterexample :
    ¬ (calculate_etops_requirement gcDist ⟨0, -170⟩ ⟨0, 170⟩ [⟨0, -170⟩, ⟨0, 170⟩]
        ≤ ((gcDist ⟨0, -170⟩ ⟨0, 170⟩ : ℝ) : WithTop ℝ)) := by
  intro hle
  have hsp : sample_point ⟨0, -170⟩ ⟨0, 170⟩ 10 = ⟨0, 0⟩ := by
    unfold sample_point
    norm_num
  have hmin : min_dist_fold gcDist ⟨0, 0⟩ [⟨0, -170⟩, ⟨0, 170⟩]
      = ((6371 * (170 * Real.pi / 180) : ℝ) : WithTop ℝ) := by
    unfold min_dist_fold
    simp only [List.foldl_cons, List.foldl_nil]
    rw [min_eq_right (le_top : ((gcDist ⟨0, 0⟩ ⟨0, -170⟩ : ℝ) : WithTop ℝ) ≤ ⊤)]
    rw [gcDist_mid_to_dep, gcDist_mid_to_arr, min_self]
  have hbound : min_dist_fold gcDist (sample_point ⟨0, -170⟩ ⟨0, 170⟩ 10)
        [⟨0, -170⟩, ⟨0, 170⟩]
      ≤ calculate_etops_requirement gcDist ⟨0, -170⟩ ⟨0, 170⟩ [⟨0, -170⟩, ⟨0, 170⟩] := by
    unfold calculate_etops_requirement
    exact foldl_max_ge_mem
      (fun i => min_dist_fold gcDist (sample_point ⟨0, -170⟩ ⟨0, 170⟩ i)
        [⟨0, -170⟩, ⟨0, 170⟩])
      (List.range 21) ((0 : ℝ) : WithTop ℝ) 10 (List.mem_range.mpr (by norm_num))
  rw [hsp, hmin] at hbound
  rw [gcDist_dep_to_arr] at hle
  have hchain := le_trans hbound hle
  have hreal := WithTop.coe_le_coe.mp hchain
  linarith [Real.pi_pos]
